import Mathlib

/-!
# Guess-the-Number front end (`src/game.js`): model and properties

A shallow embedding of the parts of `game.js` that carry the play lifecycle
(`handleSubmit`, `playOnChain`), the wallet session (`handleConnect`,
`handleAccountChange`) and the history store (`getHistory`, `addToHistory`,
`renderHistory`), followed by theorems about them.

Conventions of the embedding.

* The module-level variables of `game.js` and the few DOM properties the code
  reads back or that gate an event are fields of `State`; the stored
  `gameHistory` item is a field as well.  Pure rendering (modal, history list
  markup, selected-number label) is not part of `State`.
* Everything an asynchronous call may answer is an input (`PlayEnv`,
  `ConnectEnv`); what the code asks of the outside world is recorded as a
  list of `Effect`s.
* A JavaScript Number is an IEEE-754 binary64 value.  `JSNumber` holds `NaN`
  or a finite value `(-1)^neg * m * 2^e`; every arithmetic result is the
  exact result rounded to 53 significant bits, ties to even.  The exponent
  range is not bounded: all values that arise from a 64-digit hexadecimal
  word and from `Math.random()` stay inside the normal range of binary64.
* A JavaScript string is a `List Char`, one `Char` per UTF-16 code unit.
-/

namespace Game

/-! ## JavaScript Numbers -/

/-- A JavaScript Number: `NaN`, or the finite value `(-1)^neg * m * 2^e`.
Values built by `JSNumber.round` have `m = 0 ∧ e = 0`, or `2^52 ≤ m < 2^53`. -/
inductive JSNumber where
  | nan
  | fin (neg : Bool) (m : Nat) (e : Int)
  deriving DecidableEq, Repr

/-- Auxiliary for `floorLog2`: halve until below 2, at most `fuel` times. -/
def log2Fuel : Nat → Nat → Nat
  | 0, _ => 0
  | fuel + 1, n => if 2 ≤ n then log2Fuel fuel (n / 2) + 1 else 0

/-- Position of the leading one bit: `floorLog2 n = ⌊log₂ n⌋` for `n > 0`. -/
def floorLog2 (n : Nat) : Nat := log2Fuel n n

/-- The binary exponent of the positive ratio `num / den`: the integer `k`
with `2^k ≤ num / den < 2^(k+1)`. -/
def ratioExponent (num den : Nat) : Int :=
  if den ≤ num then (floorLog2 (num / den) : Int)
  else -((floorLog2 ((den - 1) / num) : Int) + 1)

/-- The integer nearest to `num / den`, a tie going to the even neighbour. -/
def roundHalfEven (num den : Nat) : Nat :=
  let q := num / den
  let r := num % den
  if 2 * r < den then q
  else if den < 2 * r then q + 1
  else if q % 2 = 0 then q else q + 1

/-- The Number nearest to `(-1)^neg * num / den` (for `den > 0`): 53 significant
bits, round to nearest, ties to even. -/
def JSNumber.round (neg : Bool) (num den : Nat) : JSNumber :=
  if num = 0 then .fin neg 0 0
  else
    let e := ratioExponent num den - 52
    let m := roundHalfEven (num * 2 ^ (-e).toNat) (den * 2 ^ e.toNat)
    if m = 2 ^ 53 then .fin neg (2 ^ 52) (e + 1) else .fin neg m e

/-- The Number for a natural number (exact below `2^53`). -/
def JSNumber.ofNat (n : Nat) : JSNumber := JSNumber.round false n 1

/-- The natural number a Number holds, when it holds one exactly. -/
def JSNumber.toNat? : JSNumber → Option Nat
  | .nan => none
  | .fin neg m e =>
    if m = 0 then some 0
    else if neg then none
    else if 0 ≤ e then some (m * 2 ^ e.toNat)
    else if m % 2 ^ (-e).toNat = 0 then some (m / 2 ^ (-e).toNat) else none

/-- JavaScript `a === b` on Numbers: `NaN` equals nothing, `+0 === -0`. -/
def JSNumber.strictEq : JSNumber → JSNumber → Bool
  | .fin n1 m1 e1, .fin n2 m2 e2 =>
    (m1 == 0 && m2 == 0) || (n1 == n2 && m1 == m2 && e1 == e2)
  | _, _ => false

/-- JavaScript truthiness of a Number: false for `NaN`, `+0` and `-0`. -/
def JSNumber.truthy : JSNumber → Bool
  | .nan => false
  | .fin _ m _ => m != 0

/-- JavaScript `x * k` for a Number `k` holding the natural number `k` exactly. -/
def JSNumber.mulNat : JSNumber → Nat → JSNumber
  | .nan, _ => .nan
  | .fin neg m e, k => JSNumber.round neg (m * k * 2 ^ e.toNat) (2 ^ (-e).toNat)

/-- JavaScript `x / d` for a Number `d` holding the positive natural number `d`
exactly (`1e18 = 2^18 * 5^18` is one, as `5^18 < 2^53`). -/
def JSNumber.divNat : JSNumber → Nat → JSNumber
  | .nan, _ => .nan
  | .fin neg m e, d => JSNumber.round neg (m * 2 ^ e.toNat) (d * 2 ^ (-e).toNat)

/-- JavaScript `x + k` for a Number `k` holding the natural number `k` exactly. -/
def JSNumber.addNat : JSNumber → Nat → JSNumber
  | .nan, _ => .nan
  | .fin neg m e, k =>
    let n := m * 2 ^ e.toNat
    let d := 2 ^ (-e).toNat
    if neg then
      if n ≤ k * d then JSNumber.round false (k * d - n) d
      else JSNumber.round true (n - k * d) d
    else JSNumber.round false (n + k * d) d

/-- JavaScript `Math.floor(x)`. -/
def JSNumber.floor : JSNumber → JSNumber
  | .nan => .nan
  | .fin neg m e =>
    if 0 ≤ e then .fin neg m e
    else
      let d := 2 ^ (-e).toNat
      if neg then JSNumber.round true ((m + d - 1) / d) 1
      else JSNumber.round false (m / d) 1

/-- What `Math.random()` may return: a Number `0 ≤ r < 1`. -/
def JSNumber.inUnitInterval : JSNumber → Prop
  | .fin false m e => m < 2 ^ 53 ∧ (m = 0 ∨ (e < 0 ∧ m < 2 ^ (-e).toNat))
  | _ => False

instance : DecidablePred JSNumber.inUnitInterval := fun r => by
  cases r with
  | nan => exact isFalse (fun h => h)
  | fin neg m e =>
    cases neg
    · exact inferInstanceAs (Decidable (m < 2 ^ 53 ∧ (m = 0 ∨ (e < 0 ∧ m < 2 ^ (-e).toNat))))
    · exact isFalse (fun h => h)

/-! ## JavaScript strings and `parseInt(_, 16)` -/

/-- A JavaScript string, as its sequence of code units. -/
abbrev JSString := List Char

/-- The value of a hexadecimal digit (`0-9`, `a-f`, `A-F`), by character code. -/
def hexDigit? (c : Char) : Option Nat :=
  let n := c.toNat
  if 48 ≤ n ∧ n ≤ 57 then some (n - 48)
  else if 97 ≤ n ∧ n ≤ 102 then some (n - 87)
  else if 65 ≤ n ∧ n ≤ 70 then some (n - 55)
  else none

/-- The characters `parseInt` skips at the start (white space and line
terminators of ECMAScript). -/
def isStrWhiteSpaceChar (c : Char) : Bool :=
  let n := c.toNat
  n == 0x9 || n == 0xA || n == 0xB || n == 0xC || n == 0xD || n == 0x20 ||
  n == 0xA0 || n == 0x1680 || (0x2000 ≤ n && n ≤ 0x200A) || n == 0x2028 ||
  n == 0x2029 || n == 0x202F || n == 0x205F || n == 0x3000 || n == 0xFEFF

/-- The values of the longest prefix of hexadecimal digits. -/
def takeDigits : JSString → List Nat
  | [] => []
  | c :: cs =>
    match hexDigit? c with
    | some d => d :: takeDigits cs
    | none => []

/-- The number written by a sequence of base-16 digits, first digit highest. -/
def digitsValue (ds : List Nat) : Nat := ds.foldl (fun acc d => 16 * acc + d) 0

/-- JavaScript `parseInt(s, 16)`: skip leading white space, read a sign, drop
one `0x`/`0X`, read hexadecimal digits as far as they go; `NaN` if there is
none, otherwise the Number nearest to the integer read. -/
def parseInt16 (s : JSString) : JSNumber :=
  let s1 := s.dropWhile isStrWhiteSpaceChar
  let neg := s1.head? == some '-'
  let s2 := match s1 with
    | c :: t => if c = '+' ∨ c = '-' then t else s1
    | [] => s1
  let s3 := match s2 with
    | c1 :: c2 :: t => if c1 = '0' ∧ (c2 = 'x' ∨ c2 = 'X') then t else s2
    | _ => s2
  let z := takeDigits s3
  if z.isEmpty then .nan else JSNumber.round neg (digitsValue z) 1

/-- JavaScript `s.slice(a, b)` for `0 ≤ a ≤ b`. -/
def slice (s : JSString) (a b : Nat) : JSString := (s.drop a).take (b - a)

/-! ## Errors -/

/-- A thrown JavaScript error: its `message` (empty when the error has none)
and its `code` (wallet providers set one on their errors). -/
structure JSError where
  message : String
  code : Option Int := none
  deriving DecidableEq, Repr

/-! ## The history store (`getHistory`, `addToHistory`, `renderHistory`) -/

/-- A value produced by `JSON.parse`.  An `object` lists its own properties. -/
inductive JSONValue where
  | null
  | bool (b : Bool)
  | number (x : JSNumber)
  | string (s : String)
  | array (xs : List JSONValue)
  | object (fields : List (String × JSONValue))

/-- JavaScript truthiness, as used by `||`. -/
def JSONValue.truthy : JSONValue → Bool
  | .null => false
  | .bool b => b
  | .number x => x.truthy
  | .string s => s != ""
  | .array _ => true
  | .object _ => true

/-- Whether the value is `null`. -/
def JSONValue.isNull : JSONValue → Bool
  | .null => true
  | _ => false

/-- How a Number comes back from `JSON.parse(JSON.stringify(x))`: `NaN` is
written as `null`, `-0` is written as `0`, every other Number is written so
that it parses to itself. -/
def JSNumber.toJSON : JSNumber → JSONValue
  | .nan => .null
  | .fin neg m e => if m = 0 then .number (.fin false 0 0) else .number (.fin neg m e)

mutual
/-- The value `JSON.parse(JSON.stringify(v))`: the same value with every
Number passed through `JSNumber.toJSON`. -/
def JSONValue.reserialize : JSONValue → JSONValue
  | .null => .null
  | .bool b => .bool b
  | .number x => x.toJSON
  | .string s => .string s
  | .array xs => .array (reserializeList xs)
  | .object fields => .object (reserializeFields fields)
/-- Elementwise `JSONValue.reserialize`. -/
def reserializeList : List JSONValue → List JSONValue
  | [] => []
  | x :: xs => x.reserialize :: reserializeList xs
/-- Applies `JSONValue.reserialize` to the value of every property. -/
def reserializeFields : List (String × JSONValue) → List (String × JSONValue)
  | [] => []
  | (k, v) :: fields => (k, v.reserialize) :: reserializeFields fields
end

/-- What `localStorage` holds under the key `gameHistory`: nothing, a text
that `JSON.parse` rejects, or a text that parses to the value `v`. -/
inductive Stored where
  | missing
  | malformed
  | json (v : JSONValue)

/-- The function `getHistory`: `JSON.parse(localStorage.getItem('gameHistory')) || []`
inside `try`, `[]` in the `catch`.  A missing item is `getItem(..) = null`,
and `JSON.parse(null)` is `null`. -/
def getHistory (st : Stored) : JSONValue :=
  match st with
  | .missing => .array []
  | .malformed => .array []
  | .json v => if v.truthy then v else .array []

/-- The function `renderHistory`, reduced to whether it completes: it reads
`history.length`, returns on `0`, and otherwise calls `history.map` with a
callback that reads `game.guess`, `game.winningNumber` and `game.won`. -/
def renderHistory (st : Stored) : Except JSError Unit :=
  match getHistory st with
  | .array h =>
    if h.length = 0 then .ok ()
    else if h.any JSONValue.isNull then
      .error { message := "Cannot read properties of null (reading guess)" }
    else .ok ()
  | .object fields =>
    match fields.lookup "length" with
    | some (.number x) =>
      if x.strictEq (JSNumber.ofNat 0) then .ok ()
      else .error { message := "history.map is not a function" }
    | _ => .error { message := "history.map is not a function" }
  | .string s =>
    if s.length = 0 then .ok () else .error { message := "history.map is not a function" }
  | .null => .error { message := "Cannot read properties of null (reading length)" }
  | _ => .error { message := "history.map is not a function" }

/-- The object literal `{ guess, winningNumber, won, timestamp: Date.now() }`
as it is written to storage by `JSON.stringify`. -/
def historyEntry (guess : Option Nat) (winningNumber : JSNumber) (won : Bool)
    (now : Nat) : JSONValue :=
  .object [
    ("guess", match guess with
      | some g => (JSNumber.ofNat g).toJSON
      | none => .null),
    ("winningNumber", winningNumber.toJSON),
    ("won", .bool won),
    ("timestamp", (JSNumber.ofNat now).toJSON)]

/-- The function `addToHistory`: `unshift` the new entry, `pop` once when the
length exceeds 10, `setItem` the `JSON.stringify` of the result, then
`renderHistory()`.  Returns the stored item afterwards and whether the call
completed.  The stored text is written anew from the whole array, so the old
elements pass through `JSON.stringify` again. -/
def addToHistory (guess : Option Nat) (winningNumber : JSNumber) (won : Bool)
    (now : Nat) (st : Stored) : Stored × Except JSError Unit :=
  match getHistory st with
  | .array h =>
    let h1 := historyEntry guess winningNumber won now :: h
    let h2 := if h1.length > 10 then h1.dropLast else h1
    let st1 := Stored.json (JSONValue.array h2).reserialize
    (st1, renderHistory st1)
  | _ => (st, .error { message := "history.unshift is not a function" })

/-- The arguments of one `addToHistory` call, with the clock reading. -/
structure HistoryCall where
  guess : Option Nat
  winningNumber : JSNumber
  won : Bool
  now : Nat

/-- The entry a call writes. -/
def HistoryCall.entry (c : HistoryCall) : JSONValue :=
  historyEntry c.guess c.winningNumber c.won c.now

/-- The stored item after a sequence of `addToHistory` calls, oldest first. -/
def addAllToHistory (calls : List HistoryCall) (st : Stored) : Stored :=
  calls.foldl (fun acc c => (addToHistory c.guess c.winningNumber c.won c.now acc).1) st

/-! ## Receipts and the outcome of a play (`playOnChain`, after the poll) -/

/-- One entry of `receipt.logs`; `data` is `none` when the property is absent. -/
structure Log where
  data : Option JSString

/-- A transaction receipt as `eth_getTransactionReceipt` returns it.  `logs`
is `none` when the property is absent; an entry of `logs` may be `null`. -/
structure Receipt where
  status : String
  logs : Option (List (Option Log))

/-- The three variables `won`, `winningNumber`, `prize` that `playOnChain`
hands to `showResult` and `addToHistory`. -/
structure Outcome where
  won : Bool
  winningNumber : JSNumber
  prize : JSNumber
  deriving DecidableEq, Repr

/-- The expression `Math.floor(Math.random() * 10) + 1`, for the value `r`
that `Math.random()` returned. -/
def fallbackDraw (r : JSNumber) : JSNumber := ((r.mulNat 10).floor).addNat 1

/-- The part of `playOnChain` between the poll and `showResult`: `won`,
`winningNumber` and `prize` start as `false`, the fallback draw and `0`; for a
receipt with status `'0x1'` and a non-empty `logs`, the `data` of the first
log, when longer than 2 and with at least 256 characters after the first two,
overwrites them with `parseInt(.., 16)` of the character ranges 64..128,
128..192 and 192..256.  A `null` first log raises a `TypeError` inside the
`try`, which leaves the three variables as they were. -/
def decodeOutcome (receipt : Receipt) (random : JSNumber) : Outcome :=
  let success := receipt.status == "0x1"
  let initial : Outcome :=
    { won := false, winningNumber := fallbackDraw random, prize := JSNumber.ofNat 0 }
  if success then
    match receipt.logs with
    | some (first :: _) =>
      match first with
      | none => initial
      | some log =>
        match log.data with
        | none => initial
        | some data =>
          if data.length > 2 then
            let dataHex := data.drop 2
            if dataHex.length ≥ 256 then
              { winningNumber := parseInt16 (slice dataHex 64 128),
                won := (parseInt16 (slice dataHex 128 192)).strictEq (JSNumber.ofNat 1),
                prize := (parseInt16 (slice dataHex 192 256)).divNat (10 ^ 18) }
            else initial
          else initial
    | _ => initial
  else initial

/-! ## The confirmation poll (`playOnChain`, the `while` loop) -/

/-- What one `eth_getTransactionReceipt` request may answer: `null` (not
mined yet), a thrown error, or a receipt. -/
inductive PollAnswer where
  | pending
  | threw
  | receipt (r : Receipt)

/-- Whether the answer is a receipt. -/
def PollAnswer.isReceipt : PollAnswer → Bool
  | .receipt _ => true
  | _ => false

/-- The wallet providers the code may hold in `provider`. -/
inductive Provider where
  | farcaster
  | browser
  deriving DecidableEq, Repr

/-- What the code asks of its environment, in the order it asks. -/
inductive Effect where
  | sendTransaction (sender : Option String) (target : String) (value : Nat) (guess : Nat)
  | wait (ms : Nat)
  | getTransactionReceipt (txHash : String)
  | ethCall (target : String)
  | getBalance (address : String)
  | alert (message : String)
  | requestAccounts (p : Provider)
  | switchChain
  | addChain
  | confirm
  | clipboardWrite
  deriving DecidableEq, Repr

/-- Whether the effect is an `eth_getTransactionReceipt` request. -/
def Effect.isFetch : Effect → Bool
  | .getTransactionReceipt _ => true
  | _ => false

/-- The loop `while (!receipt && attempts < 30)`: wait 2000 ms, count the
attempt, request the receipt; an answer is assigned to `receipt`, a thrown
error is caught and leaves `receipt` as it is.  `answers i` is the answer to
the request made when `attempts` was `i`.  Returns the final `receipt` and
`attempts` and the effects in order. -/
def pollLoop (answers : Nat → PollAnswer) (txHash : String)
    (receipt : Option Receipt) (attempts : Nat) :
    Option Receipt × Nat × List Effect :=
  if receipt.isNone ∧ attempts < 30 then
    let receipt1 :=
      match answers attempts with
      | .pending => none
      | .threw => receipt
      | .receipt r => some r
    let rest := pollLoop answers txHash receipt1 (attempts + 1)
    (rest.1, rest.2.1, Effect.wait 2000 :: Effect.getTransactionReceipt txHash :: rest.2.2)
  else (receipt, attempts, [])
termination_by 30 - attempts
decreasing_by omega

/-! ## Program state -/

/-- The module variables of `game.js` (`selectedNumber`, `walletConnected`,
`userAddress`, `provider`), the button properties the script sets, whether the
`accountsChanged` listener is registered, and the stored history item. -/
structure State where
  selectedNumber : Option Nat
  walletConnected : Bool
  userAddress : Option String
  provider : Option Provider
  submitBtnText : String
  submitBtnDisabled : Bool
  connectBtnText : String
  connectBtnDisabled : Bool
  connectBtnHidden : Bool
  walletInfoHidden : Bool
  listening : Bool
  gameHistory : Stored

/-- The state after the script has loaded: the four variables as declared at
lines 45-48; the button properties as the script itself restores them. -/
def initialState : State :=
  { selectedNumber := none, walletConnected := false, userAddress := none,
    provider := none, submitBtnText := "Submit Guess", submitBtnDisabled := true,
    connectBtnText := "Connect Wallet", connectBtnDisabled := false,
    connectBtnHidden := false, walletInfoHidden := true, listening := false,
    gameHistory := Stored.missing }

/-- The constant `CONTRACT_ADDRESS`. -/
def CONTRACT_ADDRESS : String := "0x8b28c26f733c6c0c978d76aa4f8ab5aa13f6f8b2"

/-- The value `ethers.parseEther("0.0001")`, in wei. -/
def entryFeeWei : Nat := 10 ^ 14

/-- The function `updateSubmitButton`. -/
def updateSubmitButton (s : State) : State :=
  { s with submitBtnDisabled := !s.walletConnected || s.selectedNumber.isNone }

/-- The function `resetSelection`. -/
def resetSelection (s : State) : State :=
  updateSubmitButton { s with selectedNumber := none }

/-- The function `updateBalance`, as the request it makes: none unless
`userAddress` and `provider` are both set (an empty address is falsy). -/
def updateBalance (s : State) : List Effect :=
  match s.userAddress, s.provider with
  | some a, some _ => if a = "" then [] else [Effect.getBalance a]
  | _, _ => []

/-! ## A play (`handleSubmit`, `playOnChain`) -/

/-- The call `iface.encodeFunctionData("play", [selectedNumber])` of ethers:
it throws unless the argument fits `uint8`.  The calldata is determined by the
guess, which stands for it. -/
def encodePlay (selectedNumber : Option Nat) : Except JSError Nat :=
  match selectedNumber with
  | some g => if g < 256 then .ok g else .error { message := "value out-of-bounds" }
  | none => .error { message := "invalid BigNumberish value" }

/-- The start of `playOnChain`, up to and including the call of
`provider.request` with `eth_sendTransaction`: the request it issues, or the
error thrown before. -/
def playOnChainRequest (s : State) : Except JSError Effect :=
  match encodePlay s.selectedNumber with
  | .error err => .error err
  | .ok g =>
    match s.provider with
    | none => .error { message := "Cannot read properties of null (reading request)" }
    | some _ => .ok (Effect.sendTransaction s.userAddress CONTRACT_ADDRESS entryFeeWei g)

/-- The answers of the environment during one play. -/
structure PlayEnv where
  sendResult : Except JSError String
  receiptAnswers : Nat → PollAnswer
  random : JSNumber
  now : Nat

/-- The message of the error thrown when the poll ends without a receipt. -/
def timeoutMessage : String := "Transaction timeout - check your wallet"

/-- The function `playOnChain`, run to completion: whether it returned or
threw, the state it leaves, and its effects in order. -/
def playOnChain (env : PlayEnv) (s : State) : Except JSError Unit × State × List Effect :=
  match playOnChainRequest s with
  | .error err => (.error err, s, [])
  | .ok send =>
    match env.sendResult with
    | .error err => (.error err, s, [send])
    | .ok txHash =>
      let s1 := { s with submitBtnText := "Confirming..." }
      let poll := pollLoop env.receiptAnswers txHash none 0
      match poll.1 with
      | none => (.error { message := timeoutMessage }, s1, send :: poll.2.2)
      | some receipt =>
        let out := decodeOutcome receipt env.random
        let added := addToHistory s1.selectedNumber out.winningNumber out.won env.now
          s1.gameHistory
        let s2 := { s1 with gameHistory := added.1 }
        match added.2 with
        | .error err => (.error err, s2, send :: poll.2.2)
        | .ok _ =>
          (.ok (), resetSelection s2,
            send :: poll.2.2 ++ (Effect.ethCall CONTRACT_ADDRESS :: updateBalance s2))

/-- The function `handleSubmit`, run to completion without other events in
between.  `CONTRACT_ADDRESS` is not the zero address, so the branch taken is
`playOnChain`. -/
def handleSubmit (env : PlayEnv) (s : State) : State × List Effect :=
  if !s.walletConnected || s.selectedNumber.isNone then (s, [])
  else
    let s1 := { s with submitBtnText := "Submitting...", submitBtnDisabled := true }
    let run := playOnChain env s1
    let alerts :=
      match run.1 with
      | .ok _ => []
      | .error err =>
        [Effect.alert (if err.message = "" then "Transaction failed" else err.message)]
    (updateSubmitButton { run.2.1 with submitBtnText := "Submit Guess" }, run.2.2 ++ alerts)

/-- The function `handleSubmit` from its invocation to its first suspension,
the `await` of the `eth_sendTransaction` request: the state and the requests
issued at that point.  This is what an invocation does before any other event
can run. -/
def handleSubmitBegin (s : State) : State × List Effect :=
  if !s.walletConnected || s.selectedNumber.isNone then (s, [])
  else
    let s1 := { s with submitBtnText := "Submitting...", submitBtnDisabled := true }
    match playOnChainRequest s1 with
    | .ok send => (s1, [send])
    | .error _ => (s1, [])

/-- The `click` listener of `submitBtn` (`setupEventListeners`): the browser
dispatches no `click` to a disabled button. -/
def submitClick (s : State) : State × List Effect :=
  if s.submitBtnDisabled then (s, []) else handleSubmitBegin s

/-- The `touchend` listener of `submitBtn` (`setupEventListeners`): it calls
`handleSubmit()` itself; touch events reach a disabled button. -/
def submitTouchend (s : State) : State × List Effect :=
  handleSubmitBegin s

/-! ## The wallet session (`handleConnect`, `switchToBase`, `handleAccountChange`) -/

/-- How the Farcaster branch of `handleConnect` ends: no provider obtained
(`sdk.context` or `sdk.wallet.ethProvider` threw or was empty), the provider
assigned and its `eth_requestAccounts` threw, or the accounts it returned. -/
inductive FarcasterAnswer where
  | unavailable
  | requestFailed
  | accounts (list : List String)

/-- The answers of the environment during one `handleConnect`. -/
structure ConnectEnv where
  farcaster : FarcasterAnswer
  windowEthereum : Option (Except JSError (List String))
  confirmAnswer : Bool
  clipboardAvailable : Bool
  switchAnswer : Except JSError Unit
  addChainAnswer : Except JSError Unit
  providerHasOn : Bool

/-- The function `switchToBase`: request the switch; on an error with code
4902 request adding the chain; every other error is thrown again. -/
def switchToBase (env : ConnectEnv) : Except JSError Unit × List Effect :=
  match env.switchAnswer with
  | .ok _ => (.ok (), [Effect.switchChain])
  | .error err =>
    if err.code = some 4902 then
      match env.addChainAnswer with
      | .ok _ => (.ok (), [Effect.switchChain, Effect.addChain])
      | .error err2 => (.error err2, [Effect.switchChain, Effect.addChain])
    else (.error err, [Effect.switchChain])

/-- The `catch` block of `handleConnect`. -/
def connectFailed (s : State) (err : JSError) (fx : List Effect) : State × List Effect :=
  ({ s with connectBtnText := "Connect Wallet", connectBtnDisabled := false },
    fx ++ [Effect.alert (if err.message = "" then "Failed to connect wallet" else err.message)])

/-- The rest of `handleConnect` once `accounts` is final (line 161 on). -/
def connectWithAccounts (env : ConnectEnv) (s : State) (accounts : List String)
    (fx : List Effect) : State × List Effect :=
  match accounts with
  | [] => connectFailed s { message := "No accounts found" } fx
  | first :: _ =>
    let s1 := { s with userAddress := some first }
    let sw := switchToBase env
    match sw.1 with
    | .error err => connectFailed s1 err (fx ++ sw.2)
    | .ok _ =>
      let s2 := { s1 with walletConnected := true, connectBtnHidden := true,
                          walletInfoHidden := false }
      let s3 := updateSubmitButton s2
      ({ s3 with listening := s3.listening || env.providerHasOn },
        fx ++ sw.2 ++ updateBalance s2)

/-- The function `handleConnect`, run to completion. -/
def handleConnect (env : ConnectEnv) (s : State) : State × List Effect :=
  if s.walletConnected then (s, [])
  else
    let s0 := { s with connectBtnText := "Connecting...", connectBtnDisabled := true }
    let fc : State × List String × List Effect :=
      match env.farcaster with
      | .unavailable => (s0, [], [])
      | .requestFailed =>
        ({ s0 with provider := some Provider.farcaster }, [],
          [Effect.requestAccounts Provider.farcaster])
      | .accounts list =>
        ({ s0 with provider := some Provider.farcaster }, list,
          [Effect.requestAccounts Provider.farcaster])
    if fc.2.1.length = 0 then
      match env.windowEthereum with
      | none =>
        let fx := fc.2.2 ++ [Effect.confirm]
        if env.confirmAnswer then
          if env.clipboardAvailable then
            connectFailed fc.1 { message := "Please open this app in a wallet browser" }
              (fx ++ [Effect.clipboardWrite,
                Effect.alert "Link copied! Paste it in your wallet browser (MetaMask, Coinbase Wallet, etc.)"])
          else
            connectFailed fc.1
              { message := "Cannot read properties of undefined (reading writeText)" } fx
        else connectFailed fc.1 { message := "Please open this app in a wallet browser" } fx
      | some answer =>
        let s1 := { fc.1 with provider := some Provider.browser }
        let fx := fc.2.2 ++ [Effect.requestAccounts Provider.browser]
        match answer with
        | .error err => connectFailed s1 err fx
        | .ok accounts => connectWithAccounts env s1 accounts fx
    else connectWithAccounts env fc.1 fc.2.1 fc.2.2

/-- The function `handleAccountChange`. -/
def handleAccountChange (accounts : List String) (s : State) : State × List Effect :=
  match accounts with
  | [] =>
    (updateSubmitButton
      { s with walletConnected := false, userAddress := none, connectBtnHidden := false,
               walletInfoHidden := true, connectBtnText := "Connect Wallet",
               connectBtnDisabled := false }, [])
  | first :: _ =>
    let s1 := { s with userAddress := some first }
    (s1, updateBalance s1)

/-- An event of the wallet session: a run of `handleConnect` with the answers
it gets, or an `accountsChanged` notification. -/
inductive SessionEvent where
  | connect (env : ConnectEnv)
  | accountsChanged (accounts : List String)

/-- The state after one session event. -/
def sessionStep (s : State) : SessionEvent → State
  | .connect env => (handleConnect env s).1
  | .accountsChanged accounts => (handleAccountChange accounts s).1

/-- The state after a sequence of session events. -/
def sessionRun (s : State) (events : List SessionEvent) : State :=
  events.foldl sessionStep s

/-! ## Notions used in the statements -/

/-- The effects of `k` rounds of the poll: a wait, then a request, `k` times. -/
def pollRounds (txHash : String) (k : Nat) : List Effect :=
  (List.replicate k [Effect.wait 2000, Effect.getTransactionReceipt txHash]).flatten

/-- Whether the character is a hexadecimal digit. -/
def isHexDigit (c : Char) : Bool := (hexDigit? c).isSome

/-- The integer a word of hexadecimal digits denotes when read big-endian:
each digit weighs 16 to the number of digits after it. -/
def bigEndianValue : JSString → Nat
  | [] => 0
  | c :: cs => (hexDigit? c).getD 0 * 16 ^ cs.length + bigEndianValue cs

/-! ## Sample inputs -/

/-- A hexadecimal numeral padded with zeros on the left to one 32-byte word. -/
def padWord (digits : String) : JSString :=
  List.replicate (64 - digits.length) '0' ++ digits.toList

/-- A receipt with the given status whose only log carries `0x` and the payload. -/
def receiptWith (status : String) (payload : JSString) : Receipt :=
  { status := status, logs := some [some { data := some ('0' :: 'x' :: payload) }] }

/-- The event payload for the words `(3, 7, 1, 100000000000000000)`. -/
def samplePayload : JSString :=
  padWord "3" ++ padWord "7" ++ padWord "1" ++ padWord "16345785d8a0000"

/-- An event payload whose second word is `2^53 + 1`. -/
def largeWordPayload : JSString :=
  padWord "3" ++ padWord "20000000000001" ++ padWord "0" ++ padWord "0"

/-- A payload of 256 characters none of which is a hexadecimal digit. -/
def nonHexPayload : JSString := List.replicate 256 'g'

/-- A payload of 256 characters, not all hexadecimal digits, whose second and
third word start with the digits `7` and `1`. -/
def partlyHexPayload : JSString :=
  padWord "3" ++ ('7' :: List.replicate 63 'g') ++ ('1' :: List.replicate 63 'g') ++
    List.replicate 64 'g'

/-- The largest Number below 1, a possible value of `Math.random()`. -/
def sampleRandom : JSNumber := .fin false (2 ^ 53 - 1) (-53)

/-- A connected session with the guess 5 selected and nothing in flight. -/
def readyState : State :=
  { initialState with
    walletConnected := true
    userAddress := some "0x1111111111111111111111111111111111111111"
    provider := some Provider.browser
    selectedNumber := some 5
    submitBtnDisabled := false
    connectBtnHidden := true
    walletInfoHidden := false }

/-- A disconnected session with the guess 5 selected. -/
def disconnectedState : State := { initialState with selectedNumber := some 5 }

/-- The poll answers "thrown error, not mined, receipt, not mined, ...". -/
def sampleAnswers : Nat → PollAnswer := fun i =>
  if i = 0 then .threw
  else if i = 2 then .receipt (receiptWith "0x1" samplePayload)
  else .pending

/-- A play whose transaction is accepted and confirmed at the third request. -/
def confirmingEnv : PlayEnv :=
  { sendResult := .ok "0xabc", receiptAnswers := sampleAnswers, random := sampleRandom,
    now := 1700000000000 }

/-- A play whose transaction is accepted and never confirmed. -/
def pendingEnv : PlayEnv :=
  { sendResult := .ok "0xabc", receiptAnswers := fun _ => .pending, random := sampleRandom,
    now := 1700000000000 }

/-- A connection attempt through the browser wallet in which the user turns
down the network switch (provider error 4001). -/
def rejectedSwitchEnv : ConnectEnv :=
  { farcaster := .unavailable
    windowEthereum := some (.ok ["0x1111111111111111111111111111111111111111"])
    confirmAnswer := false
    clipboardAvailable := true
    switchAnswer := .error { message := "User rejected the request.", code := some 4001 }
    addChainAnswer := .ok ()
    providerHasOn := true }

/-- A connection attempt through the browser wallet that succeeds. -/
def acceptedEnv : ConnectEnv :=
  { rejectedSwitchEnv with switchAnswer := .ok () }

/-- A stored history of eleven entries. -/
def elevenEntries : List JSONValue :=
  (List.range 11).map fun i => historyEntry (some 1) (JSNumber.ofNat 2) false i

/-- One call of `addToHistory`. -/
def sampleCall : HistoryCall :=
  { guess := some 3, winningNumber := JSNumber.ofNat 7, won := false, now := 1700000000000 }

/-! ## Properties of the history store -/

theorem getHistory_array (h : List JSONValue) :
    getHistory (.json (.array h)) = .array h := by
  simp [getHistory, JSONValue.truthy]

theorem reserialize_array (xs : List JSONValue) :
    (JSONValue.array xs).reserialize = .array (reserializeList xs) := by
  simp [JSONValue.reserialize]

theorem reserializeList_eq_map (xs : List JSONValue) :
    reserializeList xs = xs.map JSONValue.reserialize := by
  induction xs with
  | nil => simp [reserializeList]
  | cons x xs ih => simp [reserializeList, ih]

theorem reserializeList_fixed (xs : List JSONValue)
    (h : ∀ x ∈ xs, x.reserialize = x) : reserializeList xs = xs := by
  induction xs with
  | nil => simp [reserializeList]
  | cons x xs ih =>
    have hx : x.reserialize = x := h x (List.mem_cons_self _ _)
    have hxs : ∀ y ∈ xs, y.reserialize = y := fun y hy => h y (List.mem_cons_of_mem _ hy)
    simp [reserializeList, hx, ih hxs]

theorem reserialize_toJSON (x : JSNumber) : x.toJSON.reserialize = x.toJSON := by
  cases x with
  | nan => simp [JSNumber.toJSON, JSONValue.reserialize]
  | fin neg m e =>
    by_cases hm : m = 0
    · simp [JSNumber.toJSON, JSONValue.reserialize, hm]
    · simp [JSNumber.toJSON, JSONValue.reserialize, hm]

/-- An entry as written to storage is unchanged when it is written again. -/
theorem reserialize_historyEntry (g : Option Nat) (w : JSNumber) (won : Bool) (now : Nat) :
    (historyEntry g w won now).reserialize = historyEntry g w won now := by
  cases g with
  | none =>
    simp [historyEntry, JSONValue.reserialize, reserializeFields, reserialize_toJSON]
  | some g =>
    simp [historyEntry, JSONValue.reserialize, reserializeFields, reserialize_toJSON]

theorem reserialize_entry (c : HistoryCall) : c.entry.reserialize = c.entry :=
  reserialize_historyEntry _ _ _ _

theorem addToHistory_of_array (c : HistoryCall) (st : Stored) (h : List JSONValue)
    (hst : getHistory st = .array h) :
    (addToHistory c.guess c.winningNumber c.won c.now st).1 =
      .json (.array (reserializeList
        (if 10 ≤ h.length then (c.entry :: h).dropLast else c.entry :: h))) := by
  unfold addToHistory
  rw [hst]
  simp only [HistoryCall.entry, List.length_cons, reserialize_array]
  by_cases h10 : 10 ≤ h.length
  · have : h.length + 1 > 10 := by omega
    simp [h10, this]
  · have : ¬ (h.length + 1 > 10) := by omega
    simp [h10, this]

theorem dropLast_cons_eq_take (e : JSONValue) (h : List JSONValue) (h10 : h.length = 10) :
    (e :: h).dropLast = (e :: h).take 10 := by
  rw [List.dropLast_eq_take]
  simp [h10]

/-- On a stored sequence of at most 10 elements `addToHistory` stores the
first 10 of the new entry followed by the old elements, written anew. -/
theorem addToHistory_take_reserialized (c : HistoryCall) (st : Stored) (h : List JSONValue)
    (hst : getHistory st = .array h) (hlen : h.length ≤ 10) :
    (addToHistory c.guess c.winningNumber c.won c.now st).1 =
      .json (.array (reserializeList ((c.entry :: h).take 10))) := by
  rw [addToHistory_of_array c st h hst]
  by_cases h10 : 10 ≤ h.length
  · have heq : h.length = 10 := by omega
    rw [if_pos h10, dropLast_cons_eq_take _ _ heq]
  · rw [if_neg h10, List.take_of_length_le]
    simp only [List.length_cons]
    omega

/-- The same when the old elements are as the code writes them. -/
theorem addToHistory_take (c : HistoryCall) (st : Stored) (h : List JSONValue)
    (hst : getHistory st = .array h) (hlen : h.length ≤ 10)
    (hfix : ∀ x ∈ h, x.reserialize = x) :
    (addToHistory c.guess c.winningNumber c.won c.now st).1 =
      .json (.array ((c.entry :: h).take 10)) := by
  rw [addToHistory_take_reserialized c st h hst hlen, reserializeList_fixed]
  intro x hx
  have hmem := List.mem_of_mem_take hx
  rcases List.mem_cons.1 hmem with heq | hin
  · rw [heq]
    exact reserialize_entry c
  · exact hfix x hin

theorem addAllToHistory_snoc (calls : List HistoryCall) (c : HistoryCall) (st : Stored) :
    addAllToHistory (calls ++ [c]) st =
      (addToHistory c.guess c.winningNumber c.won c.now (addAllToHistory calls st)).1 := by
  simp [addAllToHistory, List.foldl_append]

theorem entries_fixed (calls : List HistoryCall) (n : Nat) :
    ∀ x ∈ (calls.map HistoryCall.entry).take n, x.reserialize = x := by
  intro x hx
  have hmem := List.mem_of_mem_take hx
  obtain ⟨c, _, hc⟩ := List.mem_map.1 hmem
  rw [← hc]
  exact reserialize_entry c

theorem addAllToHistory_getHistory (calls : List HistoryCall) (st : Stored)
    (hst : getHistory st = .array []) :
    getHistory (addAllToHistory calls st) =
      .array ((calls.reverse.map HistoryCall.entry).take 10) := by
  induction calls using List.reverseRecOn with
  | nil => simpa [addAllToHistory] using hst
  | append_singleton cs c ih =>
    rw [addAllToHistory_snoc, addToHistory_take c _ _ ih (by simp [List.length_take])
      (entries_fixed cs.reverse 10), getHistory_array]
    simp [List.take_take]

/-! ## Properties of the confirmation poll -/

theorem pollLoop_some (answers : Nat → PollAnswer) (tx : String) (r : Receipt) (a : Nat) :
    pollLoop answers tx (some r) a = (some r, a, []) := by
  rw [pollLoop]
  simp

theorem pollLoop_done (answers : Nat → PollAnswer) (tx : String) (a : Nat) (h : 30 ≤ a) :
    pollLoop answers tx none a = (none, a, []) := by
  rw [pollLoop]
  have : ¬ a < 30 := by omega
  simp [this]

theorem pollLoop_step (answers : Nat → PollAnswer) (tx : String) (a : Nat) (h : a < 30) :
    pollLoop answers tx none a =
      ((pollLoop answers tx (match answers a with
          | .pending => none
          | .threw => none
          | .receipt r => some r) (a + 1)).1,
       (pollLoop answers tx (match answers a with
          | .pending => none
          | .threw => none
          | .receipt r => some r) (a + 1)).2.1,
       Effect.wait 2000 :: Effect.getTransactionReceipt tx ::
         (pollLoop answers tx (match answers a with
          | .pending => none
          | .threw => none
          | .receipt r => some r) (a + 1)).2.2) := by
  rw [pollLoop]
  simp [h]

theorem pollRounds_succ (tx : String) (k : Nat) :
    pollRounds tx (k + 1) =
      Effect.wait 2000 :: Effect.getTransactionReceipt tx :: pollRounds tx k := by
  simp [pollRounds, List.replicate_succ]

theorem pollRounds_fetches (tx : String) (k : Nat) :
    ((pollRounds tx k).filter Effect.isFetch).length = k := by
  induction k with
  | zero => simp [pollRounds]
  | succ k ih =>
    rw [pollRounds_succ]
    simp [Effect.isFetch, ih]

/-- The poll from `attempts = a` with no receipt yet, described in full. -/
theorem pollLoop_spec (answers : Nat → PollAnswer) (tx : String) (n a : Nat)
    (han : a + n = 30) :
    a ≤ (pollLoop answers tx none a).2.1 ∧
    (pollLoop answers tx none a).2.1 ≤ 30 ∧
    (pollLoop answers tx none a).2.2 =
      pollRounds tx ((pollLoop answers tx none a).2.1 - a) ∧
    ((pollLoop answers tx none a).1 = none →
      (pollLoop answers tx none a).2.1 = 30 ∧
      ∀ i, a ≤ i → i < 30 → (answers i).isReceipt = false) ∧
    (∀ r, (pollLoop answers tx none a).1 = some r →
      ∃ i, a ≤ i ∧ i < 30 ∧ answers i = .receipt r ∧
        (pollLoop answers tx none a).2.1 = i + 1 ∧
        ∀ j, a ≤ j → j < i → (answers j).isReceipt = false) := by
  induction n generalizing a with
  | zero =>
    have h30 : 30 ≤ a := by omega
    rw [pollLoop_done answers tx a h30]
    refine ⟨le_refl _, by simp; omega, by simp [pollRounds], ?_, ?_⟩
    · intro _
      refine ⟨by simp; omega, ?_⟩
      intro i h1 h2
      omega
    · intro r hr
      simp at hr
  | succ n ih =>
    have hlt : a < 30 := by omega
    have ih1 := ih (a + 1) (by omega)
    rw [pollLoop_step answers tx a hlt]
    cases hans : answers a with
    | pending =>
      simp only
      obtain ⟨h1, h2, h3, h4, h5⟩ := ih1
      refine ⟨by omega, h2, ?_, ?_, ?_⟩
      · rw [h3]
        have : (pollLoop answers tx none (a + 1)).2.1 - a =
            ((pollLoop answers tx none (a + 1)).2.1 - (a + 1)) + 1 := by omega
        rw [this, pollRounds_succ]
      · intro hnone
        obtain ⟨h6, h7⟩ := h4 hnone
        refine ⟨h6, ?_⟩
        intro i hi1 hi2
        by_cases hia : i = a
        · subst hia; rw [hans]; rfl
        · exact h7 i (by omega) hi2
      · intro r hr
        obtain ⟨i, hi1, hi2, hi3, hi4, hi5⟩ := h5 r hr
        refine ⟨i, by omega, hi2, hi3, hi4, ?_⟩
        intro j hj1 hj2
        by_cases hja : j = a
        · subst hja; rw [hans]; rfl
        · exact hi5 j (by omega) hj2
    | threw =>
      simp only
      obtain ⟨h1, h2, h3, h4, h5⟩ := ih1
      refine ⟨by omega, h2, ?_, ?_, ?_⟩
      · rw [h3]
        have : (pollLoop answers tx none (a + 1)).2.1 - a =
            ((pollLoop answers tx none (a + 1)).2.1 - (a + 1)) + 1 := by omega
        rw [this, pollRounds_succ]
      · intro hnone
        obtain ⟨h6, h7⟩ := h4 hnone
        refine ⟨h6, ?_⟩
        intro i hi1 hi2
        by_cases hia : i = a
        · subst hia; rw [hans]; rfl
        · exact h7 i (by omega) hi2
      · intro r hr
        obtain ⟨i, hi1, hi2, hi3, hi4, hi5⟩ := h5 r hr
        refine ⟨i, by omega, hi2, hi3, hi4, ?_⟩
        intro j hj1 hj2
        by_cases hja : j = a
        · subst hja; rw [hans]; rfl
        · exact hi5 j (by omega) hj2
    | receipt r0 =>
      simp only
      rw [pollLoop_some]
      refine ⟨by simp, by simp; omega, ?_, ?_, ?_⟩
      · simp [pollRounds]
      · intro hnone
        simp at hnone
      · intro r hr
        simp only [Option.some.injEq] at hr
        subst hr
        exact ⟨a, le_refl _, hlt, hans, rfl, fun j hj1 hj2 => by omega⟩

/-! ## Properties of Number rounding -/

theorem log2Fuel_eq_log2 (fuel n : Nat) (h : n ≤ fuel) : log2Fuel fuel n = Nat.log2 n := by
  induction fuel generalizing n with
  | zero =>
    have h0 : n = 0 := by omega
    subst h0
    simp [log2Fuel, Nat.log2]
  | succ f ih =>
    rw [log2Fuel, Nat.log2]
    by_cases h2 : 2 ≤ n
    · simp only [h2, if_true, ge_iff_le]
      rw [ih]
      omega
    · simp [h2]

theorem floorLog2_eq_log2 (n : Nat) : floorLog2 n = Nat.log2 n :=
  log2Fuel_eq_log2 n n (le_refl n)

theorem floorLog2_le (n : Nat) (hn : n ≠ 0) : 2 ^ floorLog2 n ≤ n := by
  rw [floorLog2_eq_log2]
  exact Nat.log2_self_le hn

theorem lt_floorLog2 (n : Nat) : n < 2 ^ (floorLog2 n + 1) := by
  rw [floorLog2_eq_log2]
  exact Nat.lt_log2_self

theorem floorLog2_lt_of_lt (n j : Nat) (hn : n ≠ 0) (h : n < 2 ^ j) : floorLog2 n < j := by
  rw [floorLog2_eq_log2]
  exact (Nat.log2_lt hn).2 h

theorem roundHalfEven_one (n : Nat) : roundHalfEven n 1 = n := by
  simp [roundHalfEven, Nat.mod_one]

/-- Rounding never exceeds the exact quotient by more than one half. -/
theorem roundHalfEven_le (num den : Nat) (hden : 0 < den) :
    2 * den * roundHalfEven num den ≤ 2 * num + den := by
  have hdm := Nat.div_add_mod num den
  have hmod := Nat.mod_lt num hden
  have hq : den * (num / den) ≤ num := Nat.mul_div_le num den
  unfold roundHalfEven
  simp only
  split_ifs with h1 h2 h3
  · nlinarith
  · nlinarith
  · nlinarith
  · have h2r : 2 * (num % den) = den := by omega
    nlinarith

/-- Below `2^53` a natural number is a Number as it stands. -/
theorem round_small (n : Nat) (hn : n ≠ 0) (h53 : n < 2 ^ 53) :
    JSNumber.round false n 1 =
      .fin false (n * 2 ^ (52 - floorLog2 n)) ((floorLog2 n : Int) - 52) := by
  have hk : floorLog2 n < 53 := floorLog2_lt_of_lt n 53 hn h53
  have hlo := floorLog2_le n hn
  have hhi := lt_floorLog2 n
  have hone : 1 ≤ n := Nat.one_le_iff_ne_zero.2 hn
  unfold JSNumber.round ratioExponent
  simp only [hn, if_false, hone, if_true, Nat.div_one]
  have he1 : (-((floorLog2 n : Int) - 52)).toNat = 52 - floorLog2 n := by omega
  have he2 : ((floorLog2 n : Int) - 52).toNat = 0 := by omega
  rw [he1, he2]
  simp only [pow_zero, mul_one, roundHalfEven_one]
  have hlt : n * 2 ^ (52 - floorLog2 n) < 2 ^ 53 := by
    calc n * 2 ^ (52 - floorLog2 n)
        < 2 ^ (floorLog2 n + 1) * 2 ^ (52 - floorLog2 n) :=
          Nat.mul_lt_mul_of_pos_right hhi (by positivity)
      _ = 2 ^ 53 := by
          rw [← pow_add]
          congr 1
          omega
  rw [if_neg (Nat.ne_of_lt hlt)]

theorem toNat_round_small (n : Nat) (h53 : n < 2 ^ 53) :
    (JSNumber.round false n 1).toNat? = some n := by
  by_cases hn : n = 0
  · subst hn
    simp [JSNumber.round, JSNumber.toNat?]
  · have hk : floorLog2 n < 53 := floorLog2_lt_of_lt n 53 hn h53
    rw [round_small n hn h53]
    have hpos : 0 < 2 ^ (52 - floorLog2 n) := by positivity
    have hm : n * 2 ^ (52 - floorLog2 n) ≠ 0 :=
      Nat.mul_ne_zero hn (Nat.ne_of_gt hpos)
    unfold JSNumber.toNat?
    simp only [hm, if_false, Bool.false_eq_true]
    by_cases he : (0 : Int) ≤ (floorLog2 n : Int) - 52
    · have h52 : floorLog2 n = 52 := by omega
      simp [h52]
    · have he1 : (-((floorLog2 n : Int) - 52)).toNat = 52 - floorLog2 n := by omega
      rw [if_neg he, he1, Nat.mul_mod_left, if_pos rfl, Nat.mul_div_cancel _ hpos]

theorem ofNat_one : JSNumber.ofNat 1 = .fin false (2 ^ 52) (-52) := by decide

theorem one_le_floorLog2 (n : Nat) (h : 2 ≤ n) : 1 ≤ floorLog2 n := by
  by_contra hc
  have h0 : floorLog2 n = 0 := by omega
  have := lt_floorLog2 n
  rw [h0] at this
  simp at this
  omega

/-- The comparison `parseInt(..) === 1` holds for the integer 1 and no other. -/
theorem round_strictEq_one (n : Nat) :
    (JSNumber.round false n 1).strictEq (JSNumber.ofNat 1) = decide (n = 1) := by
  rw [ofNat_one]
  by_cases h0 : n = 0
  · subst h0
    simp [JSNumber.round, JSNumber.strictEq]
  by_cases h1 : n = 1
  · subst h1
    decide
  have h2 : 2 ≤ n := by omega
  have hk := one_le_floorLog2 n h2
  have hone : 1 ≤ n := by omega
  unfold JSNumber.round ratioExponent
  simp only [h0, if_false, hone, if_true, Nat.div_one]
  split_ifs with hc
  · simp only [JSNumber.strictEq, h1, decide_False]
    have : ¬ ((floorLog2 n : Int) - 52 + 1 = -52) := by omega
    simp [this]
  · simp only [JSNumber.strictEq, h1, decide_False]
    have : ¬ ((floorLog2 n : Int) - 52 = -52) := by omega
    simp [this]

theorem ratioExponent_lt (num den j : Nat) (hden : 0 < den)
    (h : num < den * 2 ^ j) : ratioExponent num den < (j : Int) := by
  unfold ratioExponent
  split_ifs with hle
  · have hq : num / den ≠ 0 := by
      have : 0 < num / den := Nat.div_pos hle hden
      omega
    have hlt : num / den < 2 ^ j := by
      rw [Nat.div_lt_iff_lt_mul hden]
      rw [Nat.mul_comm]
      exact h
    have := floorLog2_lt_of_lt _ j hq hlt
    omega
  · omega

/-- The heart of the range of the fallback draw: ten times a Number below 1,
rounded, is still below 10. -/
theorem roundHalfEven_ten_lt (m j s : Nat) (hm : m < 2 ^ 53) (hmj : m < 2 ^ j)
    (hs : 49 ≤ s) : roundHalfEven (m * 10 * 2 ^ s) (2 ^ j) < 10 * 2 ^ s := by
  have hD : 0 < 2 ^ j := by positivity
  have hle := roundHalfEven_le (m * 10 * 2 ^ s) (2 ^ j) hD
  have hP : 2 ^ 49 ≤ 2 ^ s := Nat.pow_le_pow_right (by norm_num) hs
  by_contra hcon
  push_neg at hcon
  have h1 : 2 * 2 ^ j * (10 * 2 ^ s) ≤ 2 * 2 ^ j * roundHalfEven (m * 10 * 2 ^ s) (2 ^ j) :=
    Nat.mul_le_mul_left _ hcon
  have h2 : 2 * 2 ^ j * (10 * 2 ^ s) ≤ 2 * (m * 10 * 2 ^ s) + 2 ^ j := le_trans h1 hle
  have h3 : 20 * 2 ^ s * (2 ^ j - m) ≤ 2 ^ j := by
    have hsub : 20 * 2 ^ s * (2 ^ j - m) = 20 * 2 ^ s * 2 ^ j - 20 * 2 ^ s * m := by
      rw [Nat.mul_sub]
    rw [hsub]
    have e1 : 2 * 2 ^ j * (10 * 2 ^ s) = 20 * 2 ^ s * 2 ^ j := by ring
    have e2 : 2 * (m * 10 * 2 ^ s) = 20 * 2 ^ s * m := by ring
    rw [e1, e2] at h2
    omega
  by_cases hj : j ≤ 53
  · have hDle : 2 ^ j ≤ 2 ^ 53 := Nat.pow_le_pow_right (by norm_num) hj
    have hpos : 1 ≤ 2 ^ j - m := by omega
    have : 20 * 2 ^ s * 1 ≤ 20 * 2 ^ s * (2 ^ j - m) := Nat.mul_le_mul_left _ hpos
    have h49 : (2:Nat) ^ 53 < 20 * 2 ^ 49 := by norm_num
    omega
  · have hj54 : 54 ≤ j := by omega
    have hDge : 2 ^ 54 ≤ 2 ^ j := Nat.pow_le_pow_right (by norm_num) hj54
    have h54 : (2:Nat) ^ 54 = 2 * 2 ^ 53 := by norm_num
    have hhalf : 2 ^ j ≤ 2 * (2 ^ j - m) := by omega
    have h4 : 20 * 2 ^ s * (2 * (2 ^ j - m)) ≤ 2 * 2 ^ j := by
      calc 20 * 2 ^ s * (2 * (2 ^ j - m)) = 2 * (20 * 2 ^ s * (2 ^ j - m)) := by ring
        _ ≤ 2 * 2 ^ j := Nat.mul_le_mul_left _ h3
    have h5 : 20 * 2 ^ s * 2 ^ j ≤ 20 * 2 ^ s * (2 * (2 ^ j - m)) :=
      Nat.mul_le_mul_left _ hhalf
    have h6 : 20 * 2 ^ j ≤ 20 * 2 ^ s * 2 ^ j := by
      have : 1 ≤ 2 ^ s := Nat.one_le_two_pow
      nlinarith
    omega

theorem floor_mulNat_ten (m j : Nat) (hm0 : m ≠ 0) (hm : m < 2 ^ 53) (hmj : m < 2 ^ j) :
    ∃ q, q ≤ 9 ∧ (JSNumber.round false (m * 10) (2 ^ j)).floor = JSNumber.round false q 1 := by
  have hD : 0 < 2 ^ j := by positivity
  have hnum : m * 10 ≠ 0 := by omega
  have hk4 : ratioExponent (m * 10) (2 ^ j) < ((4 : Nat) : Int) := by
    apply ratioExponent_lt _ _ _ hD
    have : (2:Nat) ^ 4 = 16 := by norm_num
    rw [this]
    omega
  obtain ⟨s, hs, hs49⟩ : ∃ s : Nat, (-(ratioExponent (m * 10) (2 ^ j) - 52)).toNat = s ∧ 49 ≤ s :=
    ⟨_, rfl, by omega⟩
  have hE0 : (ratioExponent (m * 10) (2 ^ j) - 52).toNat = 0 := by omega
  have hlt := roundHalfEven_ten_lt m j s hm hmj hs49
  have hround : JSNumber.round false (m * 10) (2 ^ j) =
      if roundHalfEven (m * 10 * 2 ^ s) (2 ^ j) = 2 ^ 53 then
        .fin false (2 ^ 52) (ratioExponent (m * 10) (2 ^ j) - 52 + 1)
      else .fin false (roundHalfEven (m * 10 * 2 ^ s) (2 ^ j))
        (ratioExponent (m * 10) (2 ^ j) - 52) := by
    unfold JSNumber.round
    simp only [hnum, if_false, hs, hE0, pow_zero, mul_one]
  rw [hround]
  split_ifs with hc
  · -- the significand rounded up to 2^53
    rw [hc] at hlt
    have hneg : ¬ (0 : Int) ≤ ratioExponent (m * 10) (2 ^ j) - 52 + 1 := by omega
    have hs1 : (-(ratioExponent (m * 10) (2 ^ j) - 52 + 1)).toNat = s - 1 := by omega
    refine ⟨2 ^ 52 / 2 ^ (s - 1), ?_, ?_⟩
    · have hpos : 0 < 2 ^ (s - 1) := by positivity
      have : 2 ^ 52 / 2 ^ (s - 1) < 10 := by
        rw [Nat.div_lt_iff_lt_mul hpos]
        have hsplit : 2 ^ s = 2 * 2 ^ (s - 1) := by
          have : s = (s - 1) + 1 := by omega
          conv_lhs => rw [this, pow_succ]
          ring
        have h53 : (2:Nat) ^ 53 = 2 * 2 ^ 52 := by norm_num
        omega
      omega
    · simp only [JSNumber.floor, hneg, if_false, hs1, Bool.false_eq_true]
  · have hneg : ¬ (0 : Int) ≤ ratioExponent (m * 10) (2 ^ j) - 52 := by omega
    refine ⟨roundHalfEven (m * 10 * 2 ^ s) (2 ^ j) / 2 ^ s, ?_, ?_⟩
    · have hpos : 0 < 2 ^ s := by positivity
      have : roundHalfEven (m * 10 * 2 ^ s) (2 ^ j) / 2 ^ s < 10 := by
        rw [Nat.div_lt_iff_lt_mul hpos]
        exact hlt
      omega
    · simp only [JSNumber.floor, hneg, if_false, hs, Bool.false_eq_true]

set_option maxRecDepth 100000 in
/-- The fallback draw `Math.floor(Math.random() * 10) + 1` is one of 1, ..., 10. -/
theorem fallbackDraw_range (r : JSNumber) (hr : r.inUnitInterval) :
    ∃ n, 1 ≤ n ∧ n ≤ 10 ∧ fallbackDraw r = JSNumber.ofNat n := by
  cases r with
  | nan => exact absurd hr (fun h => h)
  | fin neg m e =>
    cases neg with
    | true => exact absurd hr (fun h => h)
    | false =>
      obtain ⟨hm, hcase⟩ := hr
      by_cases hm0 : m = 0
      · subst hm0
        refine ⟨1, le_refl _, by norm_num, ?_⟩
        simp [fallbackDraw, JSNumber.mulNat, JSNumber.round, JSNumber.floor,
          JSNumber.addNat, JSNumber.ofNat]
      · rcases hcase with h0 | ⟨he, hmj⟩
        · exact absurd h0 hm0
        · have het : e.toNat = 0 := by omega
          obtain ⟨q, hq, hfl⟩ := floor_mulNat_ten m (-e).toNat hm0 hm hmj
          refine ⟨q + 1, by omega, by omega, ?_⟩
          unfold fallbackDraw JSNumber.mulNat
          simp only [het, pow_zero, mul_one]
          rw [hfl]
          interval_cases q <;> decide

/-! ## Properties of `parseInt(_, 16)` on hexadecimal words -/

theorem hexDigit_range (c : Char) (h : isHexDigit c = true) :
    (48 ≤ c.toNat ∧ c.toNat ≤ 57) ∨ (97 ≤ c.toNat ∧ c.toNat ≤ 102) ∨
      (65 ≤ c.toNat ∧ c.toNat ≤ 70) := by
  unfold isHexDigit hexDigit? at h
  simp only at h
  split_ifs at h with h1 h2 h3
  · exact Or.inl h1
  · exact Or.inr (Or.inl h2)
  · exact Or.inr (Or.inr h3)
  · simp at h

theorem hexDigit_not_space (c : Char) (h : isHexDigit c = true) :
    isStrWhiteSpaceChar c = false := by
  have hr := hexDigit_range c h
  cases hw : isStrWhiteSpaceChar c with
  | false => rfl
  | true =>
    exfalso
    simp [isStrWhiteSpaceChar] at hw
    omega

theorem hexDigit_not_sign (c : Char) (h : isHexDigit c = true) : ¬ (c = '+' ∨ c = '-') := by
  have hr := hexDigit_range c h
  rintro (hc | hc)
  · have : c.toNat = 43 := by rw [hc]; rfl
    omega
  · have : c.toNat = 45 := by rw [hc]; rfl
    omega

theorem hexDigit_not_x (c : Char) (h : isHexDigit c = true) : ¬ (c = 'x' ∨ c = 'X') := by
  have hr := hexDigit_range c h
  rintro (hc | hc)
  · have : c.toNat = 120 := by rw [hc]; rfl
    omega
  · have : c.toNat = 88 := by rw [hc]; rfl
    omega

theorem takeDigits_foldl (w : JSString) (hall : ∀ c ∈ w, isHexDigit c = true) (acc : Nat) :
    (takeDigits w).foldl (fun a d => 16 * a + d) acc = acc * 16 ^ w.length + bigEndianValue w := by
  induction w generalizing acc with
  | nil => simp [takeDigits, bigEndianValue]
  | cons c cs ih =>
    have hc : isHexDigit c = true := hall c (List.mem_cons_self _ _)
    have hcs : ∀ x ∈ cs, isHexDigit x = true := fun x hx => hall x (List.mem_cons_of_mem _ hx)
    obtain ⟨d, hd⟩ : ∃ d, hexDigit? c = some d := Option.isSome_iff_exists.1 hc
    simp only [takeDigits, hd, List.foldl_cons, bigEndianValue, Option.getD_some,
      List.length_cons]
    rw [ih hcs]
    ring

theorem takeDigits_ne_nil (w : JSString) (hne : w ≠ [])
    (hall : ∀ c ∈ w, isHexDigit c = true) : (takeDigits w).isEmpty = false := by
  cases w with
  | nil => exact absurd rfl hne
  | cons c cs =>
    have hc : isHexDigit c = true := hall c (List.mem_cons_self _ _)
    obtain ⟨d, hd⟩ : ∃ d, hexDigit? c = some d := Option.isSome_iff_exists.1 hc
    simp [takeDigits, hd]

/-- On a non-empty word of hexadecimal digits `parseInt(w, 16)` is the Number
nearest to the big-endian value of the word. -/
theorem parseInt16_hex (w : JSString) (hne : w ≠ [])
    (hall : ∀ c ∈ w, isHexDigit c = true) :
    parseInt16 w = JSNumber.ofNat (bigEndianValue w) := by
  have hval : digitsValue (takeDigits w) = bigEndianValue w := by
    unfold digitsValue
    rw [takeDigits_foldl w hall 0]
    simp
  have hemp := takeDigits_ne_nil w hne hall
  cases w with
  | nil => exact absurd rfl hne
  | cons c cs =>
    have hc : isHexDigit c = true := hall c (List.mem_cons_self _ _)
    have hsp := hexDigit_not_space c hc
    have hsign := hexDigit_not_sign c hc
    have hminus : c ≠ '-' := fun h => hsign (Or.inr h)
    have hdrop : List.dropWhile isStrWhiteSpaceChar (c :: cs) = c :: cs := by
      simp [List.dropWhile, hsp]
    unfold parseInt16
    simp only [hdrop, if_neg hsign]
    have hneg : ((c :: cs).head? == some '-') = false := by
      simp [hminus]
    cases cs with
    | nil =>
      simp only [hneg]
      rw [hemp, hval]
      simp [JSNumber.ofNat]
    | cons c2 cs2 =>
      have hc2 : isHexDigit c2 = true :=
        hall c2 (List.mem_cons_of_mem _ (List.mem_cons_self _ _))
      have hx := hexDigit_not_x c2 hc2
      have hpre : ¬ (c = '0' ∧ (c2 = 'x' ∨ c2 = 'X')) := fun h => hx h.2
      simp only [hneg, if_neg hpre]
      rw [hemp, hval]
      simp [JSNumber.ofNat]

/-! ## Properties of the outcome decoding -/

theorem slice_mid (a b c : JSString) (n k : Nat) (ha : a.length = n) (hb : b.length = k) :
    slice (a ++ b ++ c) n (n + k) = b := by
  unfold slice
  rw [List.append_assoc, List.drop_left' ha, Nat.add_sub_cancel_left, List.take_left' hb]

theorem hex_word_ne_nil (w : JSString) (h : w.length = 64) : w ≠ [] := by
  intro hw
  rw [hw] at h
  simp at h

/-- The decoding of a payload of four 64-character words, the last three of
hexadecimal digits. -/
theorem decodeOutcome_words (w1 w2 w3 w4 rest : JSString) (more : List (Option Log))
    (r : JSNumber) (h1 : w1.length = 64) (h2 : w2.length = 64) (h3 : w3.length = 64)
    (h4 : w4.length = 64) (hx2 : ∀ c ∈ w2, isHexDigit c = true)
    (hx3 : ∀ c ∈ w3, isHexDigit c = true) (hx4 : ∀ c ∈ w4, isHexDigit c = true) :
    decodeOutcome
        { status := "0x1",
          logs := some (some { data := some ('0' :: 'x' :: (w1 ++ w2 ++ w3 ++ w4 ++ rest)) }
            :: more) } r =
      { won := decide (bigEndianValue w3 = 1),
        winningNumber := JSNumber.ofNat (bigEndianValue w2),
        prize := (JSNumber.ofNat (bigEndianValue w4)).divNat (10 ^ 18) } := by
  have hlen : (w1 ++ w2 ++ w3 ++ w4 ++ rest).length = 256 + rest.length := by
    simp only [List.length_append, h1, h2, h3, h4]
  have hs2 : slice (w1 ++ w2 ++ w3 ++ w4 ++ rest) 64 128 = w2 := by
    have := slice_mid w1 w2 (w3 ++ w4 ++ rest) 64 64 h1 h2
    simpa [List.append_assoc] using this
  have hs3 : slice (w1 ++ w2 ++ w3 ++ w4 ++ rest) 128 192 = w3 := by
    have := slice_mid (w1 ++ w2) w3 (w4 ++ rest) 128 64 (by simp [h1, h2]) h3
    simpa [List.append_assoc] using this
  have hs4 : slice (w1 ++ w2 ++ w3 ++ w4 ++ rest) 192 256 = w4 := by
    have := slice_mid (w1 ++ w2 ++ w3) w4 rest 192 64 (by simp [h1, h2, h3]) h4
    simpa [List.append_assoc] using this
  have hgt : ('0' :: 'x' :: (w1 ++ w2 ++ w3 ++ w4 ++ rest)).length > 2 := by
    simp only [List.length_cons, hlen]
    omega
  have hge : (w1 ++ w2 ++ w3 ++ w4 ++ rest).length ≥ 256 := by
    rw [hlen]
    omega
  unfold decodeOutcome
  simp only [beq_self_eq_true, if_true, hgt, List.drop_succ_cons, List.drop_zero, hge,
    hs2, hs3, hs4]
  rw [parseInt16_hex w2 (hex_word_ne_nil w2 h2) hx2,
    parseInt16_hex w3 (hex_word_ne_nil w3 h3) hx3,
    parseInt16_hex w4 (hex_word_ne_nil w4 h4) hx4]
  have hwon : (JSNumber.ofNat (bigEndianValue w3)).strictEq (JSNumber.ofNat 1) =
      decide (bigEndianValue w3 = 1) := round_strictEq_one _
  rw [hwon]

/-- The outcome with which `playOnChain` starts and which it keeps unless the
event is decoded. -/
theorem decodeOutcome_not_success (receipt : Receipt) (r : JSNumber)
    (h : receipt.status ≠ "0x1") :
    decodeOutcome receipt r =
      { won := false, winningNumber := fallbackDraw r, prize := JSNumber.ofNat 0 } := by
  unfold decodeOutcome
  have : (receipt.status == "0x1") = false := by simpa using h
  simp [this]

/-- A success receipt without a usable payload keeps the initial outcome: no
`logs`, empty `logs`, a `null` first log, no `data`, or fewer than 256
characters after the first two. -/
theorem decodeOutcome_absent_or_short (receipt : Receipt) (r : JSNumber)
    (h : receipt.logs = none ∨ receipt.logs = some [] ∨
      (∃ more, receipt.logs = some (none :: more)) ∨
      (∃ more, receipt.logs = some (some { data := none } :: more)) ∨
      (∃ data more, receipt.logs = some (some { data := some data } :: more) ∧
        (data.drop 2).length < 256)) :
    decodeOutcome receipt r =
      { won := false, winningNumber := fallbackDraw r, prize := JSNumber.ofNat 0 } := by
  unfold decodeOutcome
  rcases h with h | h | ⟨more, h⟩ | ⟨more, h⟩ | ⟨data, more, h, hshort⟩
  · simp [h]
  · simp [h]
  · simp [h]
  · simp [h]
  · have hnot : ¬ (List.drop 2 data).length ≥ 256 := by omega
    simp only [h, hnot, if_false]
    split_ifs <;> rfl

/-! ## Properties of a play -/

theorem addToHistory_error_message (g : Option Nat) (w : JSNumber) (won : Bool) (now : Nat)
    (st : Stored) (err : JSError) (h : (addToHistory g w won now st).2 = .error err) :
    err.message ≠ timeoutMessage := by
  unfold addToHistory at h
  split at h
  · simp only [renderHistory, reserialize_array, getHistory_array] at h
    split_ifs at h <;> (cases h; decide)
  · cases h
    decide

theorem playOnChain_timeout_iff (env : PlayEnv) (s : State) (send : Effect) (tx : String)
    (hreq : playOnChainRequest s = .ok send) (hsend : env.sendResult = .ok tx) :
    (playOnChain env s).1 = .error { message := timeoutMessage } ↔
      (pollLoop env.receiptAnswers tx none 0).1 = none := by
  unfold playOnChain
  simp only [hreq, hsend]
  cases hp : (pollLoop env.receiptAnswers tx none 0).1 with
  | none => simp
  | some receipt =>
    simp only
    split
    · rename_i err herr
      have hmsg := addToHistory_error_message _ _ _ _ _ err herr
      simp only [reduceCtorEq, iff_false]
      intro hcon
      apply hmsg
      have : err = { message := timeoutMessage } := by
        injection hcon
      rw [this]
    · simp

theorem playOnChain_resolves (env : PlayEnv) (s : State) (send : Effect) (tx : String)
    (receipt : Receipt) (hreq : playOnChainRequest s = .ok send)
    (hsend : env.sendResult = .ok tx)
    (hpoll : (pollLoop env.receiptAnswers tx none 0).1 = some receipt) :
    (playOnChain env s).2.1.gameHistory =
      (addToHistory s.selectedNumber (decodeOutcome receipt env.random).winningNumber
        (decodeOutcome receipt env.random).won env.now s.gameHistory).1 := by
  unfold playOnChain
  simp only [hreq, hsend, hpoll]
  split <;> simp [resetSelection, updateSubmitButton]

/-! ## Properties of the wallet session -/

theorem connectWithAccounts_address (env : ConnectEnv) (s : State) (accounts : List String)
    (fx : List Effect) (hs : s.walletConnected = false)
    (h : (connectWithAccounts env s accounts fx).1.walletConnected = true) :
    (connectWithAccounts env s accounts fx).1.userAddress ≠ none := by
  unfold connectWithAccounts at h ⊢
  cases accounts with
  | nil =>
    simp only [connectFailed] at h
    rw [hs] at h
    exact absurd h (by simp)
  | cons first rest =>
    simp only at h ⊢
    cases hsw : (switchToBase env).1 with
    | error err =>
      rw [hsw] at h
      simp only [connectFailed] at h
      rw [hs] at h
      exact absurd h (by simp)
    | ok u =>
      simp [updateSubmitButton]

/-- A run of `handleConnect` keeps "connected implies an address is set". -/
theorem handleConnect_address (env : ConnectEnv) (s : State)
    (hs : s.walletConnected = true → s.userAddress ≠ none)
    (h : (handleConnect env s).1.walletConnected = true) :
    (handleConnect env s).1.userAddress ≠ none := by
  unfold handleConnect at h ⊢
  by_cases hc : s.walletConnected = true
  · simp only [hc, if_true] at h ⊢
    exact hs hc
  · have hf : s.walletConnected = false := by simpa using hc
    simp only [hf, Bool.false_eq_true, if_false] at h ⊢
    cases hfc : env.farcaster with
    | unavailable =>
      simp only [hfc, List.length_nil, if_true] at h ⊢
      cases hwe : env.windowEthereum with
      | none =>
        simp only [hwe] at h
        split_ifs at h <;> simp [connectFailed, hf] at h
      | some answer =>
        simp only [hwe] at h ⊢
        cases answer with
        | error err => simp [connectFailed, hf] at h
        | ok accounts => exact connectWithAccounts_address env _ accounts _ rfl h
    | requestFailed =>
      simp only [hfc, List.length_nil, if_true] at h ⊢
      cases hwe : env.windowEthereum with
      | none =>
        simp only [hwe] at h
        split_ifs at h <;> simp [connectFailed, hf] at h
      | some answer =>
        simp only [hwe] at h ⊢
        cases answer with
        | error err => simp [connectFailed, hf] at h
        | ok accounts => exact connectWithAccounts_address env _ accounts _ rfl h
    | accounts list =>
      simp only [hfc] at h ⊢
      by_cases hl : list.length = 0
      · simp only [hl, if_true] at h ⊢
        cases hwe : env.windowEthereum with
        | none =>
          simp only [hwe] at h
          split_ifs at h <;> simp [connectFailed, hf] at h
        | some answer =>
          simp only [hwe] at h ⊢
          cases answer with
          | error err => simp [connectFailed, hf] at h
          | ok accounts => exact connectWithAccounts_address env _ accounts _ rfl h
      · simp only [hl, if_false] at h ⊢
        exact connectWithAccounts_address env _ list _ rfl h

theorem handleAccountChange_address (accounts : List String) (s : State)
    (h : (handleAccountChange accounts s).1.walletConnected = true) :
    (handleAccountChange accounts s).1.userAddress ≠ none := by
  cases accounts with
  | nil => simp [handleAccountChange, updateSubmitButton] at h
  | cons first rest => simp [handleAccountChange]

/-- In every state reached from the initial state by session events, a
connected session has an address. -/
theorem sessionRun_connected_address (events : List SessionEvent) :
    (sessionRun initialState events).walletConnected = true →
      (sessionRun initialState events).userAddress ≠ none := by
  induction events using List.reverseRecOn with
  | nil =>
    intro h
    simp [sessionRun, initialState] at h
  | append_singleton es ev ih =>
    have hstep : sessionRun initialState (es ++ [ev]) =
        sessionStep (sessionRun initialState es) ev := by
      simp [sessionRun, List.foldl_append]
    rw [hstep]
    cases ev with
    | connect env => exact handleConnect_address env _ ih
    | accountsChanged accounts => exact handleAccountChange_address accounts _

/-! ## The claims -/

/-- C1 (the code departs from the claim): with a play in flight, the `click`
listener is held back by the disabled button, but `handleSubmit` itself, which
the `touchend` listener calls, passes its guard again and issues a second
`eth_sendTransaction`, during the send as well as during the poll. -/
theorem handleSubmit_in_flight_sends_again :
    (handleSubmitBegin readyState).2 =
      [Effect.sendTransaction (some "0x1111111111111111111111111111111111111111")
        CONTRACT_ADDRESS entryFeeWei 5] ∧
    (handleSubmitBegin readyState).1.submitBtnDisabled = true ∧
    (submitClick (handleSubmitBegin readyState).1).2 = [] ∧
    (submitTouchend (handleSubmitBegin readyState).1).2 =
      [Effect.sendTransaction (some "0x1111111111111111111111111111111111111111")
        CONTRACT_ADDRESS entryFeeWei 5] ∧
    (submitTouchend
      { (handleSubmitBegin readyState).1 with submitBtnText := "Confirming..." }).2 =
      [Effect.sendTransaction (some "0x1111111111111111111111111111111111111111")
        CONTRACT_ADDRESS entryFeeWei 5] := by
  refine ⟨rfl, rfl, rfl, rfl, rfl⟩

set_option maxRecDepth 1000000 in
/-- C2 (counterexample): for the payload whose second word is `2^53 + 1` the
decoded `winningNumber` is `2^53`, not the value of the word. -/
theorem decodeOutcome_large_word_rounds :
    (decodeOutcome (receiptWith "0x1" largeWordPayload) sampleRandom).winningNumber.toNat? =
      some 9007199254740992 ∧
    bigEndianValue (padWord "20000000000001") = 9007199254740993 ∧
    largeWordPayload.length = 256 ∧
    (∀ c ∈ largeWordPayload, isHexDigit c = true) := by
  decide

set_option maxRecDepth 1000000 in
/-- C2 (amended): for a success receipt whose first log's data is `0x` and four
64-character words, the last three of hexadecimal digits, followed by anything,
`winningNumber` is the Number nearest to the big-endian value of word 2 (that
value itself when it is below `2^53`), `won` is whether word 3 is 1, and `prize`
is the Number of word 4 divided by `1e18` in Number arithmetic; the words
`(3, 7, 1, 100000000000000000)` give 7, `true` and the Number `0.1`. -/
theorem decodeOutcome_event_words (w1 w2 w3 w4 rest : JSString) (more : List (Option Log))
    (r : JSNumber) (h1 : w1.length = 64) (h2 : w2.length = 64) (h3 : w3.length = 64)
    (h4 : w4.length = 64) (hx2 : ∀ c ∈ w2, isHexDigit c = true)
    (hx3 : ∀ c ∈ w3, isHexDigit c = true) (hx4 : ∀ c ∈ w4, isHexDigit c = true) :
    decodeOutcome
        { status := "0x1",
          logs := some (some { data := some ('0' :: 'x' :: (w1 ++ w2 ++ w3 ++ w4 ++ rest)) }
            :: more) } r =
      { won := decide (bigEndianValue w3 = 1),
        winningNumber := JSNumber.ofNat (bigEndianValue w2),
        prize := (JSNumber.ofNat (bigEndianValue w4)).divNat (10 ^ 18) } ∧
    (bigEndianValue w2 < 2 ^ 53 →
      (JSNumber.ofNat (bigEndianValue w2)).toNat? = some (bigEndianValue w2)) ∧
    decodeOutcome (receiptWith "0x1" samplePayload) r =
      { won := true, winningNumber := JSNumber.ofNat 7,
        prize := JSNumber.round false 1 10 } ∧
    (JSNumber.ofNat 7).toNat? = some 7 := by
  refine ⟨decodeOutcome_words w1 w2 w3 w4 rest more r h1 h2 h3 h4 hx2 hx3 hx4,
    fun hlt => toNat_round_small _ hlt, ?_, toNat_round_small 7 (by norm_num)⟩
  have hs := decodeOutcome_words (padWord "3") (padWord "7") (padWord "1")
    (padWord "16345785d8a0000") [] [] r (by decide) (by decide) (by decide) (by decide)
    (by decide) (by decide) (by decide)
  simp only [List.append_nil] at hs
  have hrec : receiptWith "0x1" samplePayload =
      { status := "0x1",
        logs := some [some { data := some ('0' :: 'x' ::
          (padWord "3" ++ padWord "7" ++ padWord "1" ++ padWord "16345785d8a0000")) }] } := rfl
  rw [hrec, hs]
  decide

set_option maxRecDepth 1000000 in
/-- C2 (witness): the amended statement at the words `(3, 7, 1, 10^17)`. -/
theorem decodeOutcome_event_words_witness :
    decodeOutcome
        { status := "0x1",
          logs := some (some { data := some ('0' :: 'x' :: (padWord "3" ++ padWord "7" ++
            padWord "1" ++ padWord "16345785d8a0000" ++ [])) } :: []) } sampleRandom =
      { won := decide (bigEndianValue (padWord "1") = 1),
        winningNumber := JSNumber.ofNat (bigEndianValue (padWord "7")),
        prize := (JSNumber.ofNat (bigEndianValue (padWord "16345785d8a0000"))).divNat
          (10 ^ 18) } ∧
    bigEndianValue (padWord "7") = 7 ∧
    bigEndianValue (padWord "16345785d8a0000") = 10 ^ 17 :=
  ⟨(decodeOutcome_event_words (padWord "3") (padWord "7") (padWord "1")
      (padWord "16345785d8a0000") [] [] sampleRandom (by decide) (by decide) (by decide)
      (by decide) (by decide) (by decide) (by decide)).1, by decide, by decide⟩

/-- C3: the confirmation loop makes at most 30 requests, each after a wait of
2000 ms; it ends at the first request answered by a receipt, with that receipt
and no further request, a thrown error counting like "not mined yet"; it ends
without a receipt exactly when none of the first 30 answers is a receipt, and
then, and only then, `playOnChain` throws the timeout error; otherwise
`playOnChain` records the outcome decoded from that receipt. -/
theorem pollLoop_bounded_first_receipt (answers : Nat → PollAnswer) (tx : String) :
    (pollLoop answers tx none 0).2.1 ≤ 30 ∧
    (pollLoop answers tx none 0).2.2 = pollRounds tx (pollLoop answers tx none 0).2.1 ∧
    (((pollLoop answers tx none 0).2.2).filter Effect.isFetch).length ≤ 30 ∧
    (∀ i r, i < 30 → answers i = .receipt r →
      (∀ j, j < i → (answers j).isReceipt = false) →
      (pollLoop answers tx none 0).1 = some r ∧ (pollLoop answers tx none 0).2.1 = i + 1) ∧
    ((pollLoop answers tx none 0).1 = none ↔ ∀ i, i < 30 → (answers i).isReceipt = false) ∧
    (∀ (env : PlayEnv) (s : State) (send : Effect),
      playOnChainRequest s = .ok send → env.sendResult = .ok tx →
      env.receiptAnswers = answers →
      ((playOnChain env s).1 = .error { message := timeoutMessage } ↔
        ∀ i, i < 30 → (answers i).isReceipt = false) ∧
      (∀ r, (pollLoop answers tx none 0).1 = some r →
        (playOnChain env s).2.1.gameHistory =
          (addToHistory s.selectedNumber (decodeOutcome r env.random).winningNumber
            (decodeOutcome r env.random).won env.now s.gameHistory).1)) := by
  obtain ⟨_, hle, hfx, hnone, hsome⟩ := pollLoop_spec answers tx 30 0 (by norm_num)
  have hiff : (pollLoop answers tx none 0).1 = none ↔
      ∀ i, i < 30 → (answers i).isReceipt = false := by
    constructor
    · intro h i hi
      exact (hnone h).2 i (Nat.zero_le _) hi
    · intro h
      cases hp : (pollLoop answers tx none 0).1 with
      | none => rfl
      | some r =>
        obtain ⟨i, _, hi, hans, _, _⟩ := hsome r hp
        have := h i hi
        rw [hans] at this
        simp [PollAnswer.isReceipt] at this
  have hfx0 : (pollLoop answers tx none 0).2.2 =
      pollRounds tx (pollLoop answers tx none 0).2.1 := by simpa using hfx
  refine ⟨hle, hfx0, ?_, ?_, hiff, ?_⟩
  · rw [hfx0, pollRounds_fetches]
    exact hle
  · intro i r hi hans hfirst
    cases hp : (pollLoop answers tx none 0).1 with
    | none =>
      have := (hnone hp).2 i (Nat.zero_le _) hi
      rw [hans] at this
      simp [PollAnswer.isReceipt] at this
    | some r1 =>
      obtain ⟨i1, _, hi1, hans1, hatt, hmin⟩ := hsome r1 hp
      have heq : i1 = i := by
        rcases Nat.lt_trichotomy i1 i with hlt | heq | hgt
        · have := hfirst i1 hlt
          rw [hans1] at this
          simp [PollAnswer.isReceipt] at this
        · exact heq
        · have := hmin i (Nat.zero_le _) hgt
          rw [hans] at this
          simp [PollAnswer.isReceipt] at this
      subst heq
      rw [hans1] at hans
      injection hans with hr
      subst hr
      exact ⟨rfl, hatt⟩
  · intro env s send hreq hsend hanswers
    subst hanswers
    refine ⟨?_, ?_⟩
    · rw [playOnChain_timeout_iff env s send tx hreq hsend]
      exact hiff
    · intro r hr
      exact playOnChain_resolves env s send tx r hreq hsend hr

set_option maxRecDepth 1000000 in
/-- C3 (witness): with the answers "thrown error, not mined, receipt" the loop
stops after the third request with that receipt; with no receipt among the
first 30 answers `playOnChain` throws the timeout error. -/
theorem pollLoop_bounded_first_receipt_witness :
    ((pollLoop sampleAnswers "0xabc" none 0).1 = some (receiptWith "0x1" samplePayload) ∧
      (pollLoop sampleAnswers "0xabc" none 0).2.1 = 3) ∧
    (playOnChain pendingEnv readyState).1 = .error { message := timeoutMessage } :=
  ⟨(pollLoop_bounded_first_receipt sampleAnswers "0xabc").2.2.2.1 2
      (receiptWith "0x1" samplePayload) (by decide) rfl
      (fun j hj => by interval_cases j <;> rfl),
   ((pollLoop_bounded_first_receipt (fun _ => PollAnswer.pending) "0xabc").2.2.2.2.2
      pendingEnv readyState
      (Effect.sendTransaction (some "0x1111111111111111111111111111111111111111")
        CONTRACT_ADDRESS entryFeeWei 5) rfl rfl rfl).1.2 (fun _ _ => rfl)⟩

set_option maxRecDepth 1000000 in
/-- C4 (the code departs from the claim): a success receipt whose payload has
256 characters that are not all hexadecimal digits does not fall back.  With
no digit at all `winningNumber` and `prize` are `NaN`; with words that start
with the digits 7 and 1 the outcome is a win with winning number 7 and prize
`NaN`.  The fallback draw at the same `Math.random()` value would be 10. -/
theorem decodeOutcome_non_hex_payload :
    decodeOutcome (receiptWith "0x1" nonHexPayload) sampleRandom =
      { won := false, winningNumber := .nan, prize := .nan } ∧
    decodeOutcome (receiptWith "0x1" partlyHexPayload) sampleRandom =
      { won := true, winningNumber := JSNumber.ofNat 7, prize := .nan } ∧
    fallbackDraw sampleRandom = JSNumber.ofNat 10 ∧
    nonHexPayload.length = 256 ∧ partlyHexPayload.length = 256 := by
  decide

/-- C5: a receipt whose status is not `'0x1'` yields `won = false`, `prize = 0`
and the fallback draw as `winningNumber`, whatever the logs are; for every
`Math.random()` value the draw is one of 1, ..., 10. -/
theorem decodeOutcome_failed_status (receipt : Receipt) (r : JSNumber)
    (hstatus : receipt.status ≠ "0x1") (hr : r.inUnitInterval) :
    decodeOutcome receipt r =
      { won := false, winningNumber := fallbackDraw r, prize := JSNumber.ofNat 0 } ∧
    (∃ n, 1 ≤ n ∧ n ≤ 10 ∧ fallbackDraw r = JSNumber.ofNat n) ∧
    (∀ logs, decodeOutcome { receipt with logs := logs } r = decodeOutcome receipt r) := by
  refine ⟨decodeOutcome_not_success receipt r hstatus, fallbackDraw_range r hr, ?_⟩
  intro logs
  rw [decodeOutcome_not_success receipt r hstatus,
    decodeOutcome_not_success { receipt with logs := logs } r hstatus]

set_option maxRecDepth 1000000 in
/-- C5 (witness): a reverted receipt that carries a well-formed winning event. -/
theorem decodeOutcome_failed_status_witness :
    decodeOutcome (receiptWith "0x0" samplePayload) sampleRandom =
      { won := false, winningNumber := fallbackDraw sampleRandom,
        prize := JSNumber.ofNat 0 } ∧
    fallbackDraw sampleRandom = JSNumber.ofNat 10 :=
  ⟨(decodeOutcome_failed_status (receiptWith "0x0" samplePayload) sampleRandom
      (by decide) ⟨by decide, Or.inr ⟨by decide, by decide⟩⟩).1, by decide⟩

/-- C6 (the code departs from the claim): `handleConnect` sets `userAddress`
before `switchToBase`; when the switch fails the address stays set while
`walletConnected` stays false.  The same state arises when an
`accountsChanged` notification with an account follows one without. -/
theorem handleConnect_failed_switch_keeps_address :
    (handleConnect rejectedSwitchEnv initialState).1.userAddress =
      some "0x1111111111111111111111111111111111111111" ∧
    (handleConnect rejectedSwitchEnv initialState).1.walletConnected = false ∧
    (sessionRun initialState
      [.connect acceptedEnv, .accountsChanged [],
        .accountsChanged ["0x2222222222222222222222222222222222222222"]]).userAddress =
      some "0x2222222222222222222222222222222222222222" ∧
    (sessionRun initialState
      [.connect acceptedEnv, .accountsChanged [],
        .accountsChanged ["0x2222222222222222222222222222222222222222"]]).walletConnected =
      false := by
  refine ⟨rfl, rfl, rfl, rfl⟩

/-- C7: `handleSubmit` with the session disconnected, whatever guess is
selected, or with no guess selected, returns at once: the state is unchanged
(variables, buttons and stored history) and nothing is requested. -/
theorem handleSubmit_noop (env : PlayEnv) (s : State)
    (h : s.walletConnected = false ∨ s.selectedNumber = none) :
    handleSubmit env s = (s, []) ∧ handleSubmitBegin s = (s, []) := by
  unfold handleSubmit handleSubmitBegin
  rcases h with h | h <;> simp [h]

/-- C7 (witness): guess 5 selected, wallet not connected. -/
theorem handleSubmit_noop_witness :
    handleSubmit confirmingEnv disconnectedState = (disconnectedState, []) ∧
    handleSubmitBegin disconnectedState = (disconnectedState, []) :=
  handleSubmit_noop confirmingEnv disconnectedState (Or.inl rfl)

/-- C8 (the code departs from the claim): on a stored history of 11 entries
`addToHistory` removes one entry only and persists 11 entries, the new one
followed by the first 10 old ones, not the first 10 of the new entry followed
by the old ones. -/
theorem addToHistory_eleven_persists_eleven :
    (addToHistory sampleCall.guess sampleCall.winningNumber sampleCall.won
        sampleCall.now (.json (.array elevenEntries))).1 =
      .json (.array (sampleCall.entry :: elevenEntries.take 10)) ∧
    (sampleCall.entry :: elevenEntries.take 10).length = 11 ∧
    ((sampleCall.entry :: elevenEntries).take 10).length = 10 ∧
    elevenEntries.length = 11 := by
  have hfix : ∀ x ∈ (sampleCall.entry :: elevenEntries).dropLast, x.reserialize = x := by
    intro x hx
    have hmem := List.mem_of_mem_dropLast hx
    rcases List.mem_cons.1 hmem with heq | hin
    · rw [heq]
      exact reserialize_entry sampleCall
    · obtain ⟨i, _, hi⟩ := List.mem_map.1 hin
      rw [← hi]
      exact reserialize_historyEntry _ _ _ _
  refine ⟨?_, by simp [elevenEntries], by simp [elevenEntries], by simp [elevenEntries]⟩
  rw [addToHistory_of_array sampleCall _ elevenEntries (getHistory_array _)]
  have h10 : 10 ≤ elevenEntries.length := by simp [elevenEntries]
  rw [if_pos h10, reserializeList_fixed _ hfix, List.dropLast_eq_take]
  simp [elevenEntries]

/-- C9: starting from an empty history, after the calls `calls` (oldest first)
the stored sequence is the entries of the last 10 calls, most recent first, so
it has `min n 10` entries; on a stored sequence of 10 entries `addToHistory`
stores the new entry followed by the first 9, that is, all but the last, each
written anew by `JSON.stringify` (which leaves entries the code wrote as they
are). -/
theorem addAllToHistory_most_recent_ten (calls : List HistoryCall) (st : Stored)
    (hst : getHistory st = .array []) :
    getHistory (addAllToHistory calls st) =
      .array ((calls.reverse.map HistoryCall.entry).take 10) ∧
    ((calls.reverse.map HistoryCall.entry).take 10).length = min calls.length 10 ∧
    (∀ (h : List JSONValue) (c : HistoryCall), h.length = 10 →
      (addToHistory c.guess c.winningNumber c.won c.now (.json (.array h))).1 =
        .json (.array (c.entry :: (h.take 9).map JSONValue.reserialize)) ∧
      ((∀ x ∈ h, x.reserialize = x) →
        (addToHistory c.guess c.winningNumber c.won c.now (.json (.array h))).1 =
          .json (.array (c.entry :: h.take 9))) ∧
      h.take 9 = h.dropLast ∧
      (c.entry :: (h.take 9).map JSONValue.reserialize).length = 10) := by
  refine ⟨addAllToHistory_getHistory calls st hst, ?_, ?_⟩
  · simp [List.length_take, Nat.min_comm]
  · intro h c hlen
    refine ⟨?_, ?_, ?_, ?_⟩
    · rw [addToHistory_take_reserialized c _ h (getHistory_array h) (by omega),
        reserializeList_eq_map]
      simp [reserialize_entry]
    · intro hfix
      rw [addToHistory_take c _ h (getHistory_array h) (by omega) hfix]
      simp
    · rw [List.dropLast_eq_take, hlen]
    · simp [List.length_take, hlen]

/-- C9 (witness): twelve calls on a missing `gameHistory` item. -/
theorem addAllToHistory_most_recent_ten_witness :
    getHistory (addAllToHistory (List.replicate 12 sampleCall) Stored.missing) =
      .array (((List.replicate 12 sampleCall).reverse.map HistoryCall.entry).take 10) ∧
    (((List.replicate 12 sampleCall).reverse.map HistoryCall.entry).take 10).length =
      min (List.replicate 12 sampleCall).length 10 :=
  ⟨(addAllToHistory_most_recent_ten (List.replicate 12 sampleCall) Stored.missing rfl).1,
   (addAllToHistory_most_recent_ten (List.replicate 12 sampleCall) Stored.missing rfl).2.1⟩

/-- C10 (the code departs from the claim): when the stored text is the JSON
object `{}`, `getHistory` returns that object, not the empty history, and both
`addToHistory` and `renderHistory` throw.  A missing item and a text that is
not JSON do give the empty history. -/
theorem getHistory_object_is_not_empty :
    getHistory (.json (.object [])) = .object [] ∧
    (addToHistory sampleCall.guess sampleCall.winningNumber sampleCall.won sampleCall.now
      (.json (.object []))).2 = .error { message := "history.unshift is not a function" } ∧
    renderHistory (.json (.object [])) = .error { message := "history.map is not a function" } ∧
    getHistory (.json (.string "corrupt")) = .string "corrupt" ∧
    getHistory (.json (.number (JSNumber.ofNat 5))) = .number (JSNumber.ofNat 5) ∧
    getHistory Stored.missing = .array [] ∧ getHistory Stored.malformed = .array [] := by
  refine ⟨rfl, rfl, rfl, rfl, ?_, rfl, rfl⟩
  have htruthy : (JSNumber.ofNat 5).truthy = true := by decide
  simp [getHistory, JSONValue.truthy, htruthy]

end Game
